import Mathlib

/-!
Shallow embedding of `src/app/main.py` of the string-analyzer service.

The store (a sqlite table enumerated in insertion order) is modelled as a
`List StringRecord`; each endpoint becomes a pure function that takes the
store (and, for `create`, the timestamp the framework would produce) and
returns the HTTP-level outcome together with the possibly-updated store.
Machine integers of the SHA-256 computation are `Nat` taken `% 2^32`.
-/

namespace StringAnalyzer

/-! ### UTF-8 encoding (`value.encode('utf-8')`) -/

/-- UTF-8 encoding of one code point, as its list of bytes (each `< 256`). -/
def utf8EncodeChar (c : Char) : List Nat :=
  let n := c.toNat
  if n < 0x80 then [n]
  else if n < 0x800 then
    [0xC0 + n / 64, 0x80 + n % 64]
  else if n < 0x10000 then
    [0xE0 + n / 4096, 0x80 + n / 64 % 64, 0x80 + n % 64]
  else
    [0xF0 + n / 262144, 0x80 + n / 4096 % 64, 0x80 + n / 64 % 64, 0x80 + n % 64]

/-- The UTF-8 bytes of a string (`s.encode('utf-8')` in the source). -/
def utf8Bytes (s : String) : List Nat :=
  (s.data.map utf8EncodeChar).flatten

/-! ### SHA-256 (`hashlib.sha256(...).hexdigest()`), 32-bit words as `Nat % 2^32` -/

def w32 : Nat := 4294967296

def add32 (a b : Nat) : Nat := (a + b) % w32

/-- Right rotation of a 32-bit word. -/
def rotr32 (n x : Nat) : Nat := (x / 2 ^ n + x % 2 ^ n * 2 ^ (32 - n)) % w32

def xor32 (a b : Nat) : Nat := a ^^^ b

def and32 (a b : Nat) : Nat := a &&& b

def not32 (a : Nat) : Nat := 4294967295 - a % w32

def shr32 (n x : Nat) : Nat := x / 2 ^ n

def sigma0 (x : Nat) : Nat := xor32 (xor32 (rotr32 7 x) (rotr32 18 x)) (shr32 3 x)

def sigma1 (x : Nat) : Nat := xor32 (xor32 (rotr32 17 x) (rotr32 19 x)) (shr32 10 x)

def bigSigma0 (x : Nat) : Nat := xor32 (xor32 (rotr32 2 x) (rotr32 13 x)) (rotr32 22 x)

def bigSigma1 (x : Nat) : Nat := xor32 (xor32 (rotr32 6 x) (rotr32 11 x)) (rotr32 25 x)

def shaCh (x y z : Nat) : Nat := xor32 (and32 x y) (and32 (not32 x) z)

def shaMaj (x y z : Nat) : Nat := xor32 (xor32 (and32 x y) (and32 x z)) (and32 y z)

def shaK : List Nat :=
  [1116352408, 1899447441, 3049323471, 3921009573, 961987163, 1508970993,
   2453635748, 2870763221, 3624381080, 310598401, 607225278, 1426881987,
   1925078388, 2162078206, 2614888103, 3248222580, 3835390401, 4022224774,
   264347078, 604807628, 770255983, 1249150122, 1555081692, 1996064986,
   2554220882, 2821834349, 2952996808, 3210313671, 3336571891, 3584528711,
   113926993, 338241895, 666307205, 773529912, 1294757372, 1396182291,
   1695183700, 1986661051, 2177026350, 2456956037, 2730485921, 2820302411,
   3259730800, 3345764771, 3516065817, 3600352804, 4094571909, 275423344,
   430227734, 506948616, 659060556, 883997877, 958139571, 1322822218,
   1537002063, 1747873779, 1955562222, 2024104815, 2227730452, 2361852424,
   2428436474, 2756734187, 3204031479, 3329325298]

/-- Message padding: `0x80`, zeros to 56 mod 64, then the bit length in 8 bytes. -/
def sha256pad (ms : List Nat) : List Nat :=
  let L := ms.length
  let zeros := (119 - L % 64) % 64
  let bl := 8 * L
  ms ++ [0x80] ++ List.replicate zeros 0 ++
    [bl / 2 ^ 56 % 256, bl / 2 ^ 48 % 256, bl / 2 ^ 40 % 256, bl / 2 ^ 32 % 256,
     bl / 2 ^ 24 % 256, bl / 2 ^ 16 % 256, bl / 2 ^ 8 % 256, bl % 256]

/-- Big-endian grouping of bytes into 32-bit words. -/
def bytesToWords : List Nat → List Nat
  | a :: b :: c :: d :: rest =>
      (a * 16777216 + b * 65536 + c * 256 + d) :: bytesToWords rest
  | _ => []

/-- Extend the 16 block words by `n` further schedule words. -/
def extendSchedule : Nat → List Nat → List Nat
  | 0, w => w
  | n + 1, w =>
    let i := w.length
    let x := add32 (add32 (w.getD (i - 16) 0) (sigma0 (w.getD (i - 15) 0)))
                   (add32 (w.getD (i - 7) 0) (sigma1 (w.getD (i - 2) 0)))
    extendSchedule n (w ++ [x])

structure Hash8 where
  a : Nat
  b : Nat
  c : Nat
  d : Nat
  e : Nat
  f : Nat
  g : Nat
  h : Nat
deriving Repr, DecidableEq

def shaInit : Hash8 :=
  ⟨1779033703, 3144134277, 1013904242, 2773480762,
   1359893119, 2600822924, 528734635, 1541459225⟩

/-- One compression round for constant `k` and schedule word `w`. -/
def shaRound (st : Hash8) (kw : Nat × Nat) : Hash8 :=
  let t1 := add32 (add32 (add32 st.h (bigSigma1 st.e)) (shaCh st.e st.f st.g))
                  (add32 kw.1 kw.2)
  let t2 := add32 (bigSigma0 st.a) (shaMaj st.a st.b st.c)
  ⟨add32 t1 t2, st.a, st.b, st.c, add32 st.d t1, st.e, st.f, st.g⟩

/-- Compress one 64-byte block into the running hash. -/
def shaCompress (st : Hash8) (block : List Nat) : Hash8 :=
  let w := extendSchedule 48 (bytesToWords block)
  let r := (shaK.zip w).foldl shaRound st
  ⟨add32 st.a r.a, add32 st.b r.b, add32 st.c r.c, add32 st.d r.d,
   add32 st.e r.e, add32 st.f r.f, add32 st.g r.g, add32 st.h r.h⟩

/-- Split into 64-byte blocks; `fuel` bounds the number of blocks. -/
def chunks64Aux : Nat → List Nat → List (List Nat)
  | 0, _ => []
  | _, [] => []
  | fuel + 1, l@(_ :: _) => l.take 64 :: chunks64Aux fuel (l.drop 64)

/-- Split the padded message into 64-byte blocks. -/
def chunks64 (l : List Nat) : List (List Nat) :=
  chunks64Aux l.length l

def sha256Hash (ms : List Nat) : Hash8 :=
  (chunks64 (sha256pad ms)).foldl shaCompress shaInit

/-- Lowercase hex digit for `n % 16`. -/
def hexDigitChar (n : Nat) : Char :=
  if n % 16 < 10 then Char.ofNat (48 + n % 16) else Char.ofNat (87 + n % 16)

/-- Eight lowercase hex digits of a 32-bit word, most significant first. -/
def wordToHex (x : Nat) : List Char :=
  [hexDigitChar (x / 2 ^ 28), hexDigitChar (x / 2 ^ 24), hexDigitChar (x / 2 ^ 20),
   hexDigitChar (x / 2 ^ 16), hexDigitChar (x / 2 ^ 12), hexDigitChar (x / 2 ^ 8),
   hexDigitChar (x / 2 ^ 4), hexDigitChar x]

/-- Embeds `compute_sha256` (main.py:109-110): lowercase hex SHA-256 of the UTF-8 bytes. -/
def compute_sha256 (s : String) : String :=
  let r := sha256Hash (utf8Bytes s)
  String.mk (wordToHex r.a ++ wordToHex r.b ++ wordToHex r.c ++ wordToHex r.d ++
             wordToHex r.e ++ wordToHex r.f ++ wordToHex r.g ++ wordToHex r.h)

/-! ### Analyzer (`analyze_string`, main.py:112-129) -/

/-- The accumulation step of the `for ch in s: freq[ch] = freq.get(ch, 0) + 1`
loop: a Python dict is an insertion-ordered map with unique keys, modelled as
an association list (update in place, new keys appended at the end). -/
def freqInsert : List (Char × Nat) → Char → List (Char × Nat)
  | [], c => [(c, 1)]
  | (k, v) :: rest, c =>
      if k = c then (k, v + 1) :: rest else (k, v) :: freqInsert rest c

/-- The `character_frequency_map` built by the loop in main.py:119-121. -/
def charFreq (s : String) : List (Char × Nat) :=
  s.data.foldl freqInsert []

/-- Python `len(s.split())`: count of maximal non-whitespace runs. -/
def countWordsAux : List Char → Bool → Nat
  | [], _ => 0
  | c :: rest, inWord =>
      if c.isWhitespace then countWordsAux rest false
      else (if inWord then 0 else 1) + countWordsAux rest true

structure StringProperties where
  length : Nat
  is_palindrome : Bool
  unique_characters : Nat
  word_count : Nat
  sha256_hash : String
  character_frequency_map : List (Char × Nat)
deriving Repr, DecidableEq

/-- Python `str.lower()`: the locale-independent per-code-point lowercase map. -/
def pyLower (cs : List Char) : List Char := cs.map Char.toLower

/-- Python `str.strip()`: drop leading and trailing whitespace. -/
def pyStrip (cs : List Char) : List Char :=
  ((cs.dropWhile Char.isWhitespace).reverse.dropWhile Char.isWhitespace).reverse

/-- Embeds `analyze_string` (main.py:112-129). `len(set(s))` is the number of distinct
characters, i.e. `s.data.dedup.length`; the palindrome check is
`s.lower() == s.lower()[::-1]`. -/
def analyze_string (s : String) : StringProperties :=
  { length := s.data.length
    is_palindrome := pyLower s.data == (pyLower s.data).reverse
    unique_characters := s.data.dedup.length
    word_count := countWordsAux s.data false
    sha256_hash := compute_sha256 s
    character_frequency_map := charFreq s }

/-! ### Record store (sqlite table, enumerated in insertion order) -/

structure StringRecord where
  id : String
  value : String
  properties : StringProperties
  created_at : String
deriving Repr, DecidableEq

/-- An HTTP error response: status code and detail message. -/
structure HTTPError where
  status : Nat
  detail : String
deriving Repr, DecidableEq

def notFoundError : HTTPError := ⟨404, "String does not exist in the system"⟩

def duplicateError : HTTPError := ⟨409, "String already exists in the system"⟩

/-- Embeds `db_get_by_id` (main.py:44-52). -/
def db_get_by_id (store : List StringRecord) (id_ : String) : Option StringRecord :=
  store.find? (fun r => r.id == id_)

/-- Embeds `db_get_by_value` (main.py:54-62). -/
def db_get_by_value (store : List StringRecord) (value : String) : Option StringRecord :=
  store.find? (fun r => r.value == value)

/-- Embeds `db_delete_by_id` (main.py:64-71): the new store and the change count. -/
def db_delete_by_id (store : List StringRecord) (id_ : String) :
    List StringRecord × Nat :=
  let remaining := store.filter (fun r => !(r.id == id_))
  (remaining, store.length - remaining.length)

/-- Invariant maintained by the service: every stored id is the content hash. -/
def StoreWf (store : List StringRecord) : Prop :=
  ∀ r ∈ store, r.id = compute_sha256 r.value

/-! ### Endpoints -/

/-- Embeds `create_string` (main.py:136-156): analyze, derive the id, reject a
duplicate with 409 leaving the store unchanged, otherwise insert. -/
def create_string (store : List StringRecord) (value : String) (now : String) :
    Except HTTPError StringRecord × List StringRecord :=
  let props := analyze_string value
  let id_ := props.sha256_hash
  match db_get_by_id store id_ with
  | some _ => (.error duplicateError, store)
  | none =>
      let rec_ : StringRecord := ⟨id_, value, props, now⟩
      (.ok rec_, store ++ [rec_])

/-- Embeds `is_sha256_hex` (main.py:162-163): `re.fullmatch(r"[A-Fa-f0-9]{64}", s)`. -/
def isHexChar (c : Char) : Bool :=
  ('A' ≤ c && c ≤ 'F') || ('a' ≤ c && c ≤ 'f') || ('0' ≤ c && c ≤ '9')

def is_sha256_hex (s : String) : Bool :=
  s.data.length == 64 && s.data.all isHexChar

/-- Embeds `get_string` (main.py:165-177): a 64-hex identifier is looked up as a
content hash, anything else as a raw value. -/
def get_string (store : List StringRecord) (string_value : String) :
    Except HTTPError StringRecord :=
  if is_sha256_hex string_value then
    match db_get_by_id store string_value with
    | some item => .ok item
    | none => .error notFoundError
  else
    match db_get_by_value store string_value with
    | some item => .ok item
    | none => .error notFoundError

/-- Embeds `delete_string` (main.py:183-196), same identifier resolution. -/
def delete_string (store : List StringRecord) (string_value : String) :
    Except HTTPError Unit × List StringRecord :=
  if is_sha256_hex string_value then
    let (store', changes) := db_delete_by_id store string_value
    if changes == 0 then (.error notFoundError, store') else (.ok (), store')
  else
    match db_get_by_value store string_value with
    | none => (.error notFoundError, store)
    | some item =>
        let (store', changes) := db_delete_by_id store item.id
        if changes == 0 then (.error notFoundError, store') else (.ok (), store')

/-- The optional query filters of `list_strings` (and the parsed filters of the
natural-language endpoint). FastAPI rejects negative numerics (`ge=0`) and
non-single-character `contains_character` before the handler runs, so the
numeric fields are `Nat` and the character is a `Char`. -/
structure QueryFilters where
  is_palindrome : Option Bool := none
  min_length : Option Nat := none
  max_length : Option Nat := none
  word_count : Option Nat := none
  contains_character : Option Char := none
deriving Repr, DecidableEq

def emptyFilters : QueryFilters := {}

/-- Key membership in the frequency map (`c in p["character_frequency_map"]`). -/
def freqHasKey (m : List (Char × Nat)) (c : Char) : Bool :=
  m.any (fun p => p.1 == c)

/-- The `matches` closure, inlined identically in `list_strings`
(main.py:212-225) and in `filter_by_nl` (main.py:296-308). -/
def matchesFilters (f : QueryFilters) (item : StringRecord) : Bool :=
  let p := item.properties
  (match f.is_palindrome with | none => true | some b => p.is_palindrome == b) &&
  (match f.min_length with | none => true | some n => !(p.length < n)) &&
  (match f.max_length with | none => true | some n => !(n < p.length)) &&
  (match f.word_count with | none => true | some n => p.word_count == n) &&
  (match f.contains_character with
   | none => true
   | some c => freqHasKey p.character_frequency_map c)

/-- Embeds `list_strings` (main.py:202-233): the filtered enumeration and its count. -/
def list_strings (store : List StringRecord) (f : QueryFilters) :
    List StringRecord × Nat :=
  let data := store.filter (matchesFilters f)
  (data, data.length)

/-! ### Natural-language translator (`parse_nl_query`, main.py:239-283) -/

/-- Substring containment (Python `needle in haystack`). -/
def containsSub (needle : List Char) : List Char → Bool
  | [] => needle.isPrefixOf []
  | c :: rest => needle.isPrefixOf (c :: rest) || containsSub needle rest

/-- Decimal value of a digit run (how `int()` reads the regex capture). -/
def natOfDigitsAux (acc : Nat) : List Char → Nat
  | [] => acc
  | c :: rest => natOfDigitsAux (acc * 10 + (c.toNat - 48)) rest

def natOfDigits (ds : List Char) : Nat := natOfDigitsAux 0 ds

/-- Model of `re.search(r"longer than (\d+)", ql)`: first position where the literal
`"longer than "` is followed by at least one digit; the greedy capture is the
maximal digit run there. (`"longer than "` has 12 characters.) -/
def searchLongerThan : List Char → Option Nat
  | [] => none
  | l@(_ :: rest) =>
      if ("longer than ".data).isPrefixOf l then
        let ds := (l.drop 12).takeWhile Char.isDigit
        if ds.isEmpty then searchLongerThan rest else some (natOfDigits ds)
      else searchLongerThan rest

/-- Model of `re.search(r"longer than (\d+) characters", ql)`: as above but the digit
run must be followed by the literal `" characters"` (no backtracking into the
digit run is possible, since `' '` is not a digit). -/
def searchLongerThanChars : List Char → Option Nat
  | [] => none
  | l@(_ :: rest) =>
      if ("longer than ".data).isPrefixOf l then
        let after := l.drop 12
        let ds := after.takeWhile Char.isDigit
        if ds.isEmpty then searchLongerThanChars rest
        else if (" characters".data).isPrefixOf (after.dropWhile Char.isDigit) then
          some (natOfDigits ds)
        else searchLongerThanChars rest
      else searchLongerThanChars rest

/-- The `\w` class of the regex module: a word character. -/
def isWordChar (c : Char) : Bool := c.isAlphanum || c == '_'

/-- Model of `re.search(r"containing the letter (\w)", ql)`: first position where the
22-character literal `"containing the letter "` is followed by a word
character; captures that character. -/
def searchContainingLetter : List Char → Option Char
  | [] => none
  | l@(_ :: rest) =>
      if ("containing the letter ".data).isPrefixOf l then
        match l.drop 22 with
        | c :: _ =>
            if isWordChar c then some c else searchContainingLetter rest
        | [] => searchContainingLetter rest
      else searchContainingLetter rest

/-- The rule cascade of `parse_nl_query` (main.py:251-280), applied to the
lowercased, trimmed character list; each rule overwrites the fields it sets. -/
def apply_nl_rules (cs : List Char) : QueryFilters :=
  let f0 : QueryFilters := {}
  let f1 := if containsSub "single word".data cs || containsSub "single-word".data cs
            then { f0 with word_count := some 1 } else f0
  let f2 := if containsSub "palindrom".data cs
            then { f1 with is_palindrome := some true } else f1
  let f3 := match searchLongerThan cs with
            | some n => { f2 with min_length := some (n + 1) }
            | none => f2
  let f4 := match searchLongerThanChars cs with
            | some n => { f3 with min_length := some (n + 1) }
            | none => f3
  let f5 := match searchContainingLetter cs with
            | some c => { f4 with contains_character := some c }
            | none => f4
  let f6 := if containsSub "containing the letter z".data cs ||
               containsSub "contain the letter z".data cs ||
               containsSub "containing z".data cs
            then { f5 with contains_character := some 'z' } else f5
  let f7 := if containsSub "first vowel".data cs
            then { f6 with contains_character := some 'a' } else f6
  let f8 := match searchContainingLetter cs with
            | some c => { f7 with contains_character := some c }
            | none => f7
  f8

/-- Embeds `parse_nl_query` (main.py:239-283): lowercase and trim, run the rules,
and raise `ValueError` when no filter was set. -/
def parse_nl_query (q : String) : Except String QueryFilters :=
  let ql := pyLower (pyStrip q.data)
  let filters := apply_nl_rules ql
  if filters = emptyFilters then .error "Unable to parse natural language query"
  else .ok filters

/-- Embeds `filter_by_nl` (main.py:285-318): a `ValueError` from the parser becomes a
400 response; otherwise the records are filtered with the same `matches` logic
and returned with their count and the parsed filters. -/
def filter_by_nl (store : List StringRecord) (query : String) :
    Except HTTPError (List StringRecord × Nat × QueryFilters) :=
  match parse_nl_query query with
  | .error e => .error ⟨400, e⟩
  | .ok parsed =>
      let data := store.filter (matchesFilters parsed)
      .ok (data, data.length, parsed)

/-! ### Helper lemmas -/

theorem isHexChar_hexDigitChar (n : Nat) : isHexChar (hexDigitChar n) = true := by
  unfold hexDigitChar isHexChar
  have h : n % 16 < 16 := Nat.mod_lt _ (by norm_num)
  generalize n % 16 = m at *
  interval_cases m <;> decide

/-- Every digest the service produces has the 64-lowercase-hex shape. -/
theorem is_sha256_hex_compute (s : String) : is_sha256_hex (compute_sha256 s) = true := by
  simp [is_sha256_hex, compute_sha256, wordToHex, isHexChar_hexDigitChar]

/-- Total character count recorded in a frequency map. -/
def sumValues (m : List (Char × Nat)) : Nat := (m.map Prod.snd).sum

theorem sumValues_freqInsert (m : List (Char × Nat)) (c : Char) :
    sumValues (freqInsert m c) = sumValues m + 1 := by
  induction m with
  | nil => rfl
  | cons kv rest ih =>
      obtain ⟨k, v⟩ := kv
      by_cases h : k = c <;> simp [freqInsert, h, sumValues] at * <;> omega

theorem sumValues_foldl_freqInsert (l : List Char) (m : List (Char × Nat)) :
    sumValues (l.foldl freqInsert m) = sumValues m + l.length := by
  induction l generalizing m with
  | nil => simp
  | cons c rest ih => simp [List.foldl, ih, sumValues_freqInsert]; omega

theorem sumValues_charFreq (s : String) : sumValues (charFreq s) = s.data.length := by
  have h := sumValues_foldl_freqInsert s.data []
  simpa [charFreq, sumValues] using h

/-! ### C4 — PropertySet invariants -/

/-- C4: for every string `v`, `analyze(v)` satisfies
`unique_characters ≤ length`, the frequency-map values sum to `length`, and
`sha256_hash` is the lowercase hex SHA-256 of the UTF-8 bytes of `v`, which is
exactly the id under which a successful create stores the record. -/
theorem claim4_propertyset_invariants (v : String) :
    (analyze_string v).unique_characters ≤ (analyze_string v).length ∧
    sumValues (analyze_string v).character_frequency_map = (analyze_string v).length ∧
    (analyze_string v).sha256_hash = compute_sha256 v ∧
    ∀ store now r store',
      create_string store v now = (.ok r, store') →
      r.id = (analyze_string v).sha256_hash := by
  refine ⟨?_, ?_, rfl, ?_⟩
  · exact (List.dedup_sublist v.data).length_le
  · exact sumValues_charFreq v
  · intro store now r store' h
    simp only [create_string] at h
    cases hdb : db_get_by_id store ((analyze_string v).sha256_hash) with
    | some r0 => rw [hdb] at h; simp at h
    | none =>
        rw [hdb] at h
        simp only [Prod.mk.injEq, Except.ok.injEq] at h
        obtain ⟨h1, _⟩ := h
        subst h1
        rfl

/-- Witness for C4 at `v = "level"`, `store = []`. -/
theorem claim4_propertyset_invariants_witness :
    create_string [] "level" "t1" =
      (.ok ⟨compute_sha256 "level", "level", analyze_string "level", "t1"⟩,
       [⟨compute_sha256 "level", "level", analyze_string "level", "t1"⟩]) ∧
    (⟨compute_sha256 "level", "level", analyze_string "level", "t1"⟩ :
        StringRecord).id = (analyze_string "level").sha256_hash :=
  ⟨rfl, (claim4_propertyset_invariants "level").2.2.2 [] "t1" _ _ rfl⟩

/-! ### C5 — palindrome semantics -/

/-- C5: `is_palindrome` is true iff the lowercased string equals its own
reverse; nothing is stripped: `"level"` is a palindrome, `"a man a plan"` is
not. -/
theorem claim5_palindrome_no_normalization :
    (∀ v : String,
      (analyze_string v).is_palindrome = true ↔
        pyLower v.data = (pyLower v.data).reverse) ∧
    (analyze_string "level").is_palindrome = true ∧
    (analyze_string "a man a plan").is_palindrome = false := by
  refine ⟨fun v => ?_, by decide, by decide⟩
  simp [analyze_string]

/-! ### C1 — duplicate creation is rejected without a write -/

/-- C1: if a record with id `sha256(v)` is stored, `create_string v` fails
with 409 (DuplicateRecord) and returns the store unchanged; creating
`"level"` twice succeeds once (palindrome, length 5) and the second call
fails while the store still holds exactly one record with value `"level"`. -/
theorem claim1_duplicate_rejected :
    (∀ store v now r0,
      db_get_by_id store (compute_sha256 v) = some r0 →
      create_string store v now = (.error duplicateError, store)) ∧
    (∀ t1 t2 : String, ∃ (r : StringRecord) (s1 : List StringRecord),
      create_string [] "level" t1 = (.ok r, s1) ∧
      r.properties.is_palindrome = true ∧
      r.properties.length = 5 ∧
      r.value = "level" ∧
      create_string s1 "level" t2 = (.error duplicateError, s1) ∧
      (s1.filter (fun x => x.value == "level")).length = 1) := by
  constructor
  · intro store v now r0 h
    have h' : db_get_by_id store ((analyze_string v).sha256_hash) = some r0 := h
    simp [create_string, h']
  · intro t1 t2
    refine ⟨⟨compute_sha256 "level", "level", analyze_string "level", t1⟩,
            [⟨compute_sha256 "level", "level", analyze_string "level", t1⟩],
            rfl, ?_, ?_, rfl, ?_, ?_⟩
    · show (analyze_string "level").is_palindrome = true
      decide
    · show (analyze_string "level").length = 5
      decide
    · have h' : db_get_by_id
          [(⟨compute_sha256 "level", "level", analyze_string "level", t1⟩ : StringRecord)]
          ((analyze_string "level").sha256_hash) =
          some ⟨compute_sha256 "level", "level", analyze_string "level", t1⟩ := by
        simp [db_get_by_id, List.find?, analyze_string]
      simp [create_string, h']
    · simp [List.filter]

/-- Witness for C1: a store already holding `"level"` rejects a second create. -/
theorem claim1_duplicate_rejected_witness :
    create_string [⟨compute_sha256 "level", "level", analyze_string "level", "t1"⟩]
        "level" "t2" =
      (.error duplicateError,
       [⟨compute_sha256 "level", "level", analyze_string "level", "t1"⟩]) :=
  claim1_duplicate_rejected.1 _ "level" "t2"
    ⟨compute_sha256 "level", "level", analyze_string "level", "t1"⟩
    (by simp [db_get_by_id, List.find?, analyze_string])

/-! ### C3 — filter exactness and order preservation -/

/-- Spec-side reading of §4.3: a record satisfies a predicate iff every
present constraint holds, `min_length`/`max_length` both inclusive; absent
constraints impose no restriction. -/
def SatisfiesPredicateSpec (f : QueryFilters) (r : StringRecord) : Prop :=
  (∀ b, f.is_palindrome = some b → r.properties.is_palindrome = b) ∧
  (∀ n, f.min_length = some n → n ≤ r.properties.length) ∧
  (∀ n, f.max_length = some n → r.properties.length ≤ n) ∧
  (∀ n, f.word_count = some n → r.properties.word_count = n) ∧
  (∀ c, f.contains_character = some c →
    freqHasKey r.properties.character_frequency_map c = true)

theorem matchesFilters_iff (f : QueryFilters) (r : StringRecord) :
    matchesFilters f r = true ↔ SatisfiesPredicateSpec f r := by
  obtain ⟨fp, fmin, fmax, fwc, fcc⟩ := f
  simp only [matchesFilters, SatisfiesPredicateSpec]
  cases fp <;> cases fmin <;> cases fmax <;> cases fwc <;> cases fcc <;>
    simp [Nat.not_lt, and_assoc]

set_option maxRecDepth 40000 in
/-- C3: the filter endpoint returns exactly the records satisfying every
present constraint (both length bounds inclusive), as a subsequence of the
enumeration (order preserved), with `count` the number returned; concretely,
filtering the four example records on `is_palindrome = true` returns the
three palindromes in enumeration order with count 3. -/
theorem claim3_filter_exactness :
    (∀ store f,
      (list_strings store f).1.Sublist store ∧
      (list_strings store f).2 = (list_strings store f).1.length ∧
      (∀ r, r ∈ (list_strings store f).1 ↔
        r ∈ store ∧ SatisfiesPredicateSpec f r)) ∧
    (list_strings
        [⟨compute_sha256 "racecar", "racecar", analyze_string "racecar", "t1"⟩,
         ⟨compute_sha256 "hello world", "hello world", analyze_string "hello world", "t2"⟩,
         ⟨compute_sha256 "a", "a", analyze_string "a", "t3"⟩,
         ⟨compute_sha256 "noon", "noon", analyze_string "noon", "t4"⟩]
        { is_palindrome := some true } =
      ([⟨compute_sha256 "racecar", "racecar", analyze_string "racecar", "t1"⟩,
        ⟨compute_sha256 "a", "a", analyze_string "a", "t3"⟩,
        ⟨compute_sha256 "noon", "noon", analyze_string "noon", "t4"⟩], 3)) := by
  constructor
  · intro store f
    refine ⟨List.filter_sublist store, rfl, fun r => ?_⟩
    rw [show (list_strings store f).1 = store.filter (matchesFilters f) from rfl]
    rw [List.mem_filter, matchesFilters_iff]
  · decide

/-- Witness for C3: a concrete record is returned by an unconstrained filter. -/
theorem claim3_filter_exactness_witness :
    (⟨compute_sha256 "level", "level", analyze_string "level", "t1"⟩ : StringRecord) ∈
      (list_strings [⟨compute_sha256 "level", "level", analyze_string "level", "t1"⟩]
        emptyFilters).1 :=
  ((claim3_filter_exactness.1 _ emptyFilters).2.2 _).mpr
    ⟨by simp, by simp [SatisfiesPredicateSpec, emptyFilters]⟩

/-! ### Store lemmas shared by C6, C7, C10 -/

theorem db_get_by_id_append (store tail : List StringRecord) (i : String)
    (h : db_get_by_id store i = none) :
    db_get_by_id (store ++ tail) i = db_get_by_id tail i := by
  unfold db_get_by_id at *
  rw [List.find?_append, h]
  rfl

theorem db_get_by_value_append (store tail : List StringRecord) (v : String)
    (h : db_get_by_value store v = none) :
    db_get_by_value (store ++ tail) v = db_get_by_value tail v := by
  unfold db_get_by_value at *
  rw [List.find?_append, h]
  rfl

theorem db_get_by_value_mem {store : List StringRecord} {v : String}
    {r : StringRecord} (h : db_get_by_value store v = some r) :
    r ∈ store ∧ r.value = v := by
  unfold db_get_by_value at h
  exact ⟨List.mem_of_find?_eq_some h, by simpa using List.find?_some h⟩

/-! ### C6 — identifier resolution and the round trip -/

/-- C6: a 64-hex identifier is resolved as a content hash, any other as a raw
value via `get_by_value`; after a successful create of `"level"` on a
well-formed store, `GetString("level")` and `GetString(<its id>)` both return
the created record. -/
theorem claim6_round_trip :
    (∀ store idf item, is_sha256_hex idf = true →
      db_get_by_id store idf = some item → get_string store idf = .ok item) ∧
    (∀ store idf item, is_sha256_hex idf = false →
      db_get_by_value store idf = some item → get_string store idf = .ok item) ∧
    (∀ store now r store', StoreWf store →
      create_string store "level" now = (.ok r, store') →
      get_string store' "level" = .ok r ∧ get_string store' r.id = .ok r) := by
  refine ⟨?_, ?_, ?_⟩
  · intro store idf item hhex hdb
    simp [get_string, hhex, hdb]
  · intro store idf item hhex hdb
    simp [get_string, hhex, hdb]
  · intro store now r store' hwf hc
    simp only [create_string] at hc
    cases hdb : db_get_by_id store ((analyze_string "level").sha256_hash) with
    | some r0 => rw [hdb] at hc; simp at hc
    | none =>
        rw [hdb] at hc
        simp only [Prod.mk.injEq, Except.ok.injEq] at hc
        obtain ⟨h1, h2⟩ := hc
        subst h1
        subst h2
        have hdb' : db_get_by_id store (compute_sha256 "level") = none := hdb
        have hval : db_get_by_value store "level" = none := by
          unfold db_get_by_value
          rw [List.find?_eq_none]
          intro x hx hv
          have hxv : x.value = "level" := by simpa using hv
          have hxid := List.find?_eq_none.mp hdb' x hx
          apply hxid
          simp [hwf x hx, hxv]
        constructor
        · rw [show get_string
              (store ++ [(⟨(analyze_string "level").sha256_hash, "level",
                analyze_string "level", now⟩ : StringRecord)]) "level" =
              match db_get_by_value (store ++ [⟨(analyze_string "level").sha256_hash,
                "level", analyze_string "level", now⟩]) "level" with
              | some item => .ok item
              | none => .error notFoundError from by
            simp [get_string, show is_sha256_hex "level" = false from by decide]]
          rw [db_get_by_value_append _ _ _ hval]
          simp [db_get_by_value, List.find?]
        · have hhex : is_sha256_hex ((analyze_string "level").sha256_hash) = true :=
            is_sha256_hex_compute "level"
          rw [show (⟨(analyze_string "level").sha256_hash, "level",
              analyze_string "level", now⟩ : StringRecord).id =
              (analyze_string "level").sha256_hash from rfl]
          rw [show get_string
              (store ++ [(⟨(analyze_string "level").sha256_hash, "level",
                analyze_string "level", now⟩ : StringRecord)])
              ((analyze_string "level").sha256_hash) =
              match db_get_by_id (store ++ [⟨(analyze_string "level").sha256_hash,
                "level", analyze_string "level", now⟩])
                ((analyze_string "level").sha256_hash) with
              | some item => .ok item
              | none => .error notFoundError from by
            simp [get_string, hhex]]
          rw [db_get_by_id_append _ _ _ hdb]
          simp [db_get_by_id, List.find?]

/-- Witness for C6: the round trip holds after creating `"level"` in the
empty store. -/
theorem claim6_round_trip_witness :
    get_string [⟨compute_sha256 "level", "level", analyze_string "level", "t1"⟩]
        "level" =
      .ok ⟨compute_sha256 "level", "level", analyze_string "level", "t1"⟩ ∧
    get_string [⟨compute_sha256 "level", "level", analyze_string "level", "t1"⟩]
        (⟨compute_sha256 "level", "level", analyze_string "level", "t1"⟩ :
          StringRecord).id =
      .ok ⟨compute_sha256 "level", "level", analyze_string "level", "t1"⟩ :=
  claim6_round_trip.2.2 [] "t1" _ _ (by intro r hr; simp at hr) rfl

/-! ### C7 — delete-then-get and NotFound on nonexistent identifiers -/

/-- C7: deleting `"level"` from a well-formed store that resolves it removes
the record, and both `GetString("level")` and `GetString(<its id>)` then
return 404 (NotFound); deleting an identifier that resolves to no record
returns 404, not a no-op success. -/
theorem claim7_delete_then_get :
    (∀ store r, StoreWf store →
      db_get_by_value store "level" = some r →
      delete_string store "level" = (.ok (), (db_delete_by_id store r.id).1) ∧
      get_string (db_delete_by_id store r.id).1 "level" = .error notFoundError ∧
      get_string (db_delete_by_id store r.id).1 r.id = .error notFoundError) ∧
    (∀ store idf,
      (is_sha256_hex idf = true → db_get_by_id store idf = none) →
      (is_sha256_hex idf = false → db_get_by_value store idf = none) →
      delete_string store idf = (.error notFoundError, store)) := by
  constructor
  · intro store r hwf hval
    obtain ⟨hmem, hrv⟩ := db_get_by_value_mem hval
    have hid : r.id = compute_sha256 "level" := by rw [hwf r hmem, hrv]
    have hlt : (store.filter (fun x => !(x.id == r.id))).length < store.length := by
      refine List.length_filter_lt_length_iff_exists.mpr ⟨r, hmem, ?_⟩
      simp
    have hch : ((db_delete_by_id store r.id).2 == 0) = false := by
      rw [beq_eq_false_iff_ne]
      show store.length - (store.filter (fun x => !(x.id == r.id))).length ≠ 0
      omega
    have hnv : db_get_by_value (db_delete_by_id store r.id).1 "level" = none := by
      unfold db_get_by_value db_delete_by_id
      rw [List.find?_eq_none]
      intro x hx hbe
      have hx' := List.mem_filter.mp hx
      have hxv : x.value = "level" := by simpa using hbe
      have hxid : x.id = r.id := by rw [hwf x hx'.1, hxv, hid]
      have := hx'.2
      rw [hxid] at this
      simp at this
    have hni : db_get_by_id (db_delete_by_id store r.id).1 r.id = none := by
      unfold db_get_by_id db_delete_by_id
      rw [List.find?_eq_none]
      intro x hx hbe
      have hx' := List.mem_filter.mp hx
      have := hx'.2
      rw [hbe] at this
      simp at this
    refine ⟨?_, ?_, ?_⟩
    · simp only [delete_string, show is_sha256_hex "level" = false from by decide,
        Bool.false_eq_true, if_false, hval]
      rw [show (db_delete_by_id store r.id) =
          ((db_delete_by_id store r.id).1, (db_delete_by_id store r.id).2) from rfl]
      rw [hch]
      simp
    · simp [get_string, show is_sha256_hex "level" = false from by decide, hnv]
    · have hhex : is_sha256_hex r.id = true := by
        rw [hid]; exact is_sha256_hex_compute "level"
      simp [get_string, hhex, hni]
  · intro store idf h1 h2
    cases hhex : is_sha256_hex idf with
    | false =>
        have hv := h2 hhex
        simp [delete_string, hhex, hv]
    | true =>
        have hi := h1 hhex
        have hfilter : store.filter (fun x => !(x.id == idf)) = store := by
          rw [List.filter_eq_self]
          intro x hx
          have hne := List.find?_eq_none.mp hi x hx
          simp only [Bool.not_eq_true] at hne
          simp [hne]
        simp [delete_string, hhex, db_delete_by_id, hfilter]

/-- Witness for C7: deleting `"level"` from a one-record store, then both
lookups fail; deleting from the empty store fails with 404. -/
theorem claim7_delete_then_get_witness :
    (delete_string [⟨compute_sha256 "level", "level", analyze_string "level", "t1"⟩]
        "level" =
      (.ok (), (db_delete_by_id
        [⟨compute_sha256 "level", "level", analyze_string "level", "t1"⟩]
        (⟨compute_sha256 "level", "level", analyze_string "level", "t1"⟩ :
          StringRecord).id).1) ∧
      get_string (db_delete_by_id
        [⟨compute_sha256 "level", "level", analyze_string "level", "t1"⟩]
        (⟨compute_sha256 "level", "level", analyze_string "level", "t1"⟩ :
          StringRecord).id).1 "level" = .error notFoundError ∧
      get_string (db_delete_by_id
        [⟨compute_sha256 "level", "level", analyze_string "level", "t1"⟩]
        (⟨compute_sha256 "level", "level", analyze_string "level", "t1"⟩ :
          StringRecord).id).1
        (⟨compute_sha256 "level", "level", analyze_string "level", "t1"⟩ :
          StringRecord).id = .error notFoundError) ∧
    delete_string [] "nosuch" = (.error notFoundError, []) :=
  ⟨claim7_delete_then_get.1 _ _
      (by intro x hx; simp at hx; subst hx; rfl)
      (by simp [db_get_by_value, List.find?]),
   claim7_delete_then_get.2 [] "nosuch" (fun _ => rfl) (fun _ => rfl)⟩

/-! ### C10 — hex-shaped values are shadowed by hash resolution -/

/-- C10: a stored record whose `value` is 64-hex-shaped but differs from every
stored id is unreachable: `GetString(value)` and `DeleteString(value)` return
404 even though the record exists, because hex-shaped identifiers are only
resolved as content hashes and the by-value lookup is never attempted. -/
theorem claim10_hex_value_shadowed :
    ∀ store r, r ∈ store → is_sha256_hex r.value = true →
      (∀ x ∈ store, x.id ≠ r.value) →
      get_string store r.value = .error notFoundError ∧
      delete_string store r.value = (.error notFoundError, store) := by
  intro store r hmem hhex hids
  have hnone : db_get_by_id store r.value = none := by
    unfold db_get_by_id
    rw [List.find?_eq_none]
    intro x hx hbe
    exact hids x hx (by simpa using hbe)
  constructor
  · simp [get_string, hhex, hnone]
  · have hfilter : store.filter (fun x => !(x.id == r.value)) = store := by
      rw [List.filter_eq_self]
      intro x hx
      have : (x.id == r.value) = false := beq_eq_false_iff_ne.mpr (hids x hx)
      simp [this]
    simp [delete_string, hhex, db_delete_by_id, hfilter]

set_option maxRecDepth 40000 in
/-- Witness for C10: the stored value of 64 letters `a` is hex-shaped, differs
from its own record's id, and both endpoints answer 404 on it. -/
theorem claim10_hex_value_shadowed_witness :
    get_string
      [⟨compute_sha256 "aaaaaaaaaaaaaaaaaaaaaaaaaaaaaaaaaaaaaaaaaaaaaaaaaaaaaaaaaaaaaaaa",
        "aaaaaaaaaaaaaaaaaaaaaaaaaaaaaaaaaaaaaaaaaaaaaaaaaaaaaaaaaaaaaaaa",
        analyze_string "aaaaaaaaaaaaaaaaaaaaaaaaaaaaaaaaaaaaaaaaaaaaaaaaaaaaaaaaaaaaaaaa",
        "t1"⟩]
      "aaaaaaaaaaaaaaaaaaaaaaaaaaaaaaaaaaaaaaaaaaaaaaaaaaaaaaaaaaaaaaaa" =
      .error notFoundError ∧
    delete_string
      [⟨compute_sha256 "aaaaaaaaaaaaaaaaaaaaaaaaaaaaaaaaaaaaaaaaaaaaaaaaaaaaaaaaaaaaaaaa",
        "aaaaaaaaaaaaaaaaaaaaaaaaaaaaaaaaaaaaaaaaaaaaaaaaaaaaaaaaaaaaaaaa",
        analyze_string "aaaaaaaaaaaaaaaaaaaaaaaaaaaaaaaaaaaaaaaaaaaaaaaaaaaaaaaaaaaaaaaa",
        "t1"⟩]
      "aaaaaaaaaaaaaaaaaaaaaaaaaaaaaaaaaaaaaaaaaaaaaaaaaaaaaaaaaaaaaaaa" =
      (.error notFoundError,
       [⟨compute_sha256 "aaaaaaaaaaaaaaaaaaaaaaaaaaaaaaaaaaaaaaaaaaaaaaaaaaaaaaaaaaaaaaaa",
         "aaaaaaaaaaaaaaaaaaaaaaaaaaaaaaaaaaaaaaaaaaaaaaaaaaaaaaaaaaaaaaaa",
         analyze_string "aaaaaaaaaaaaaaaaaaaaaaaaaaaaaaaaaaaaaaaaaaaaaaaaaaaaaaaaaaaaaaaa",
         "t1"⟩]) :=
  claim10_hex_value_shadowed _
    ⟨compute_sha256 "aaaaaaaaaaaaaaaaaaaaaaaaaaaaaaaaaaaaaaaaaaaaaaaaaaaaaaaaaaaaaaaa",
      "aaaaaaaaaaaaaaaaaaaaaaaaaaaaaaaaaaaaaaaaaaaaaaaaaaaaaaaaaaaaaaaa",
      analyze_string "aaaaaaaaaaaaaaaaaaaaaaaaaaaaaaaaaaaaaaaaaaaaaaaaaaaaaaaaaaaaaaaa",
      "t1"⟩
    (by simp) (by decide)
    (by intro x hx; simp at hx; subst hx; decide)

/-! ### Field characterizations of the rule cascade -/

theorem apply_nl_rules_max_length (cs : List Char) :
    (apply_nl_rules cs).max_length = none := by
  unfold apply_nl_rules
  repeat' split
  all_goals rfl

theorem apply_nl_rules_min_length (cs : List Char) :
    (apply_nl_rules cs).min_length =
      (match searchLongerThanChars cs, searchLongerThan cs with
        | some n, _ => some (n + 1)
        | none, some n => some (n + 1)
        | none, none => none) := by
  cases h4 : searchLongerThanChars cs <;> cases h3 : searchLongerThan cs <;>
    simp only [apply_nl_rules, h3, h4] <;> (repeat' split) <;> rfl

set_option linter.unnecessarySeqFocus false in
theorem apply_nl_rules_contains (cs : List Char) :
    (apply_nl_rules cs).contains_character =
      (match searchContainingLetter cs with
        | some c => some c
        | none =>
          if containsSub "first vowel".data cs then some 'a'
          else if (containsSub "containing the letter z".data cs ||
                   containsSub "contain the letter z".data cs ||
                   containsSub "containing z".data cs) then some 'z'
          else none) := by
  cases h5 : searchContainingLetter cs <;>
    simp only [apply_nl_rules, h5] <;> (repeat' split) <;> simp_all

/-! ### C8 — Unparseable exactly when no rule fires, surfaced as 400 -/

/-- C8: `translate` fails exactly when the rule cascade leaves every field of
the predicate unset; `"xyzzy plugh"` is such a phrase, and the endpoint
surfaces it as a 400 client error, not a server fault or an empty result. -/
theorem claim8_unparseable_iff_no_rule :
    (∀ q : String,
      parse_nl_query q = .error "Unable to parse natural language query" ↔
      apply_nl_rules (pyLower (pyStrip q.data)) = emptyFilters) ∧
    parse_nl_query "xyzzy plugh" = .error "Unable to parse natural language query" ∧
    (∀ store, filter_by_nl store "xyzzy plugh" =
      .error ⟨400, "Unable to parse natural language query"⟩) := by
  have hxyzzy : parse_nl_query "xyzzy plugh" =
      .error "Unable to parse natural language query" := rfl
  refine ⟨fun q => ?_, hxyzzy, fun store => ?_⟩
  · simp only [parse_nl_query]
    split
    next h => exact iff_of_true rfl h
    next h => exact iff_of_false (by simp) h
  · simp [filter_by_nl, hxyzzy]

/-! ### C2 — which rule wins `contains_character` on overlapping phrases -/

/-- C2 counterexample: `"containing the letter q and containing z"` matches
the generic rule 4 (capturing `'q'`) and the literal-z rule 5, yet translates
to `contains_character = 'q'`, not `'z'` as the claim states; the claimed
rule-4-then-5-then-6 override order is not what the code implements. -/
theorem claim2_rule_conflict_counterexample :
    searchContainingLetter
      (pyLower (pyStrip "containing the letter q and containing z".data)) = some 'q' ∧
    containsSub "containing z".data
      (pyLower (pyStrip "containing the letter q and containing z".data)) = true ∧
    parse_nl_query "containing the letter q and containing z" =
      .ok { contains_character := some 'q' } ∧
    ({ contains_character := some 'q' } : QueryFilters).contains_character ≠
      some 'z' := by
  refine ⟨by decide, by decide, rfl, by decide⟩

/-- C2 amended: later rules do override earlier ones, but the generic
`containing the letter <c>` check is applied a second time after the
literal-z and first-vowel rules, so whenever the generic pattern matches,
its captured character wins; `'z'` (rule 5) and `'a'` (rule 6) survive only
when the generic pattern is absent, with rule 6 beating rule 5. -/
theorem claim2_rule_conflict_amended :
    (∀ q c, searchContainingLetter (pyLower (pyStrip q.data)) = some c →
      ∃ f, parse_nl_query q = .ok f ∧ f.contains_character = some c) ∧
    (∀ q, searchContainingLetter (pyLower (pyStrip q.data)) = none →
      containsSub "first vowel".data (pyLower (pyStrip q.data)) = false →
      (containsSub "containing the letter z".data (pyLower (pyStrip q.data)) ||
       containsSub "contain the letter z".data (pyLower (pyStrip q.data)) ||
       containsSub "containing z".data (pyLower (pyStrip q.data))) = true →
      ∃ f, parse_nl_query q = .ok f ∧ f.contains_character = some 'z') ∧
    (∀ q, searchContainingLetter (pyLower (pyStrip q.data)) = none →
      containsSub "first vowel".data (pyLower (pyStrip q.data)) = true →
      ∃ f, parse_nl_query q = .ok f ∧ f.contains_character = some 'a') := by
  refine ⟨?_, ?_, ?_⟩
  · intro q c h
    have hcc : (apply_nl_rules (pyLower (pyStrip q.data))).contains_character =
        some c := by
      rw [apply_nl_rules_contains, h]
    refine ⟨apply_nl_rules (pyLower (pyStrip q.data)), ?_, hcc⟩
    simp only [parse_nl_query]
    split
    next he => exfalso; rw [he] at hcc; simp [emptyFilters] at hcc
    next => rfl
  · intro q h5 hvowel hz
    have hcc : (apply_nl_rules (pyLower (pyStrip q.data))).contains_character =
        some 'z' := by
      rw [apply_nl_rules_contains, h5]
      simp [hvowel, hz]
    refine ⟨apply_nl_rules (pyLower (pyStrip q.data)), ?_, hcc⟩
    simp only [parse_nl_query]
    split
    next he => exfalso; rw [he] at hcc; simp [emptyFilters] at hcc
    next => rfl
  · intro q h5 hvowel
    have hcc : (apply_nl_rules (pyLower (pyStrip q.data))).contains_character =
        some 'a' := by
      rw [apply_nl_rules_contains, h5]
      simp [hvowel]
    refine ⟨apply_nl_rules (pyLower (pyStrip q.data)), ?_, hcc⟩
    simp only [parse_nl_query]
    split
    next he => exfalso; rw [he] at hcc; simp [emptyFilters] at hcc
    next => rfl

/-- Witness for the amended C2 at three concrete phrases: the generic rule
wins, a rule-5-only phrase yields `'z'`, a rule-6 phrase yields `'a'`. -/
theorem claim2_rule_conflict_amended_witness :
    (∃ f, parse_nl_query "strings containing the letter x" = .ok f ∧
      f.contains_character = some 'x') ∧
    (∃ f, parse_nl_query "strings containing z" = .ok f ∧
      f.contains_character = some 'z') ∧
    (∃ f, parse_nl_query "palindromic strings that contain the first vowel" = .ok f ∧
      f.contains_character = some 'a') :=
  ⟨claim2_rule_conflict_amended.1 _ 'x' (by decide),
   claim2_rule_conflict_amended.2.1 _ (by decide) (by decide) (by decide),
   claim2_rule_conflict_amended.2.2 _ (by decide) (by decide)⟩

/-! ### C9 — "longer than N" sets `min_length = N + 1` -/

theorem takeWhile_digits_append (ds l : List Char)
    (hds : ∀ c ∈ ds, c.isDigit = true) :
    (ds ++ l).takeWhile Char.isDigit = ds ++ l.takeWhile Char.isDigit := by
  induction ds with
  | nil => rfl
  | cons c rest ih =>
      simp [List.takeWhile_cons, hds c (by simp),
            ih (fun x hx => hds x (by simp [hx]))]

theorem dropWhile_digits_append (ds l : List Char)
    (hds : ∀ c ∈ ds, c.isDigit = true) :
    (ds ++ l).dropWhile Char.isDigit = l.dropWhile Char.isDigit := by
  induction ds with
  | nil => rfl
  | cons c rest ih =>
      simp [List.dropWhile_cons, hds c (by simp),
            ih (fun x hx => hds x (by simp [hx]))]

theorem searchLongerThan_skip {c : Char} {rest : List Char}
    (h : ("longer than ".data).isPrefixOf (c :: rest) = false) :
    searchLongerThan (c :: rest) = searchLongerThan rest := by
  simp [searchLongerThan, h]

theorem searchLongerThanChars_skip {c : Char} {rest : List Char}
    (h : ("longer than ".data).isPrefixOf (c :: rest) = false) :
    searchLongerThanChars (c :: rest) = searchLongerThanChars rest := by
  simp [searchLongerThanChars, h]

/-- On the canonical phrase the first regex finds the digit run `ds`. -/
theorem searchLongerThan_canonical (ds : List Char) (hne : ds ≠ [])
    (hds : ∀ c ∈ ds, c.isDigit = true) :
    searchLongerThan ("strings longer than ".data ++ ds ++ " characters".data) =
      some (natOfDigits ds) := by
  have hemp : ds.isEmpty = false := by
    cases ds with
    | nil => exact absurd rfl hne
    | cons _ _ => rfl
  show searchLongerThan
      ('s' :: 't' :: 'r' :: 'i' :: 'n' :: 'g' :: 's' :: ' ' :: 'l' :: 'o' :: 'n' :: 'g' :: 'e' :: 'r' :: ' ' ::
        't' :: 'h' :: 'a' :: 'n' :: ' ' :: (ds ++ " characters".data)) =
    some (natOfDigits ds)
  iterate 8 rw [searchLongerThan_skip (by simp [List.isPrefixOf])]
  simp [searchLongerThan, List.isPrefixOf,
        takeWhile_digits_append ds (" characters".data) hds, hemp]

/-- On the canonical phrase the second regex also finds `ds`, since the digit
run is followed by the literal `" characters"`. -/
theorem searchLongerThanChars_canonical (ds : List Char) (hne : ds ≠ [])
    (hds : ∀ c ∈ ds, c.isDigit = true) :
    searchLongerThanChars
        ("strings longer than ".data ++ ds ++ " characters".data) =
      some (natOfDigits ds) := by
  have hemp : ds.isEmpty = false := by
    cases ds with
    | nil => exact absurd rfl hne
    | cons _ _ => rfl
  show searchLongerThanChars
      ('s' :: 't' :: 'r' :: 'i' :: 'n' :: 'g' :: 's' :: ' ' :: 'l' :: 'o' :: 'n' :: 'g' :: 'e' :: 'r' :: ' ' ::
        't' :: 'h' :: 'a' :: 'n' :: ' ' :: (ds ++ " characters".data)) =
    some (natOfDigits ds)
  iterate 8 rw [searchLongerThanChars_skip (by simp [List.isPrefixOf])]
  simp [searchLongerThanChars, List.isPrefixOf,
        takeWhile_digits_append ds (" characters".data) hds,
        dropWhile_digits_append ds (" characters".data) hds, hemp]

/-- C9: for every nonnegative `N` and every phrase in which the first
`longer than <digits>` match captures `N` — with the
`longer than <digits> characters` variant either capturing the same `N` or
absent (the "optionally followed by characters" case) — `translate` sets
`min_length = N + 1` (strictly longer than `N`) and no other length
constraint. -/
theorem claim9_longer_than_plus_one :
    ∀ (q : String) (N : Nat),
      searchLongerThan (pyLower (pyStrip q.data)) = some N →
      (searchLongerThanChars (pyLower (pyStrip q.data)) = some N ∨
       searchLongerThanChars (pyLower (pyStrip q.data)) = none) →
      ∃ f, parse_nl_query q = .ok f ∧
        f.min_length = some (N + 1) ∧ f.max_length = none := by
  intro q N hplain hchars
  have hmin : (apply_nl_rules (pyLower (pyStrip q.data))).min_length =
      some (N + 1) := by
    rw [apply_nl_rules_min_length]
    rcases hchars with hc | hc <;> rw [hc, hplain]
  have hmax := apply_nl_rules_max_length (pyLower (pyStrip q.data))
  refine ⟨apply_nl_rules (pyLower (pyStrip q.data)), ?_, hmin, hmax⟩
  simp only [parse_nl_query]
  split
  next he => exfalso; rw [he] at hmin; simp [emptyFilters] at hmin
  next => rfl

/-- Witness for C9 at `N = 5`, both with and without the optional
`"characters"` suffix: `"strings longer than 5 characters"` and
`"strings longer than 5"` each yield `min_length = 6` and no `max_length`. -/
theorem claim9_longer_than_plus_one_witness :
    (∃ f, parse_nl_query "strings longer than 5 characters" = .ok f ∧
      f.min_length = some 6 ∧ f.max_length = none) ∧
    (∃ f, parse_nl_query "strings longer than 5" = .ok f ∧
      f.min_length = some 6 ∧ f.max_length = none) :=
  ⟨claim9_longer_than_plus_one "strings longer than 5 characters" 5
      (by decide) (Or.inl (by decide)),
   claim9_longer_than_plus_one "strings longer than 5" 5
      (by decide) (Or.inr (by decide))⟩

end StringAnalyzer
